import Mathlib

/-!
Verification of the s3pitr repository: a shallow embedding of the per-key
version-resolution engine (main.go's Scan callback over the BadgerDB store),
the concurrent S3 bucket scanner (pkg/s3scanner), and the exclusion matcher
(pkg/s3scanner/exclusion.go), together with theorems settling the spec's
claims about them.

Modelling conventions:
- `time.Time` values are modelled as `Int` (the code only uses `After`,
  i.e. `<`, and `Equal`, i.e. `=`, both of which respect the total order
  on instants).
- Go strings are byte arrays compared byte-lexicographically by `>`;
  on valid UTF-8, byte-lexicographic order coincides with
  codepoint-lexicographic order, so strings are modelled as Lean `String`
  with the explicit codepoint-lexicographic comparison `goStrLt`.
- The BadgerDB store is modelled as an association list from keys to the
  deserialized `S3ObjectMetadata` (Serialize/Unmarshal round-trip the
  struct, so the stored bytes are identified with the struct value).
-/

/-- One character-list lexicographic strict comparison, the model of Go's
`<` / `>` on strings (byte order on valid UTF-8 equals codepoint order). -/
def charsLt : List Char → List Char → Bool
  | [], [] => false
  | [], _ :: _ => true
  | _ :: _, [] => false
  | a :: as, b :: bs =>
    if a < b then true
    else if b < a then false
    else charsLt as bs

/-- Go string strict order `a < b` (so Go's `x > y` is `goStrLt y x`). -/
def goStrLt (a b : String) : Bool := charsLt a.data b.data

/-- `S3ObjectMetadata` from pkg/s3scanner (object.go): the metadata stored
per key in the resolution store. Pointer indirections are dropped. -/
structure S3ObjectMetadata where
  versionId : String
  lastModified : Int
  isDeleteMarker : Bool
  isLatest : Bool
deriving Repr, DecidableEq

/-- `S3Object` from pkg/s3scanner (object.go): one version or
delete-marker record of one key. -/
structure S3Object where
  key : String
  metadata : S3ObjectMetadata
deriving Repr, DecidableEq

/-- The resolution store (BadgerDB scoped to one run), as an association
list from object keys to their currently resolved metadata. -/
def Store : Type := List (String × S3ObjectMetadata)

instance : DecidableEq Store := by unfold Store; infer_instance

/-- `txn.Get`: the stored entry for a key, `none` for `ErrKeyNotFound`. -/
def dbGet : Store → String → Option S3ObjectMetadata
  | [], _ => none
  | (k, v) :: rest, key => if k = key then some v else dbGet rest key

/-- `txn.Set`: store a value under a key, replacing any existing entry. -/
def dbSet : Store → String → S3ObjectMetadata → Store
  | [], key, v => [(key, v)]
  | (k, w) :: rest, key, v =>
    if k = key then (k, v) :: rest else (k, w) :: dbSet rest key v

/-- The per-object callback passed by `main` to `scanner.Scan` (main.go):
drop the record if its `LastModified` is after `targetRestoreTime`,
otherwise run the per-key read-modify-write transaction on the store.
Branches are in the order of the Go code: key not found → `Set`; newer
`LastModified` → `Set`; equal `LastModified` and the record `IsLatest` →
`Set`; equal `LastModified`, neither `IsLatest`, and the record's
`VersionId` lexicographically greater → `Set`; otherwise keep. -/
def callbackStep (targetRestoreTime : Int) (store : Store) (obj : S3Object) : Store :=
  if targetRestoreTime < obj.metadata.lastModified then store
  else
    match dbGet store obj.key with
    | none => dbSet store obj.key obj.metadata
    | some dbObject =>
      if dbObject.lastModified < obj.metadata.lastModified then
        dbSet store obj.key obj.metadata
      else if obj.metadata.lastModified = dbObject.lastModified ∧ obj.metadata.isLatest = true then
        dbSet store obj.key obj.metadata
      else if obj.metadata.lastModified = dbObject.lastModified ∧ obj.metadata.isLatest = false ∧
          dbObject.isLatest = false ∧ goStrLt dbObject.versionId obj.metadata.versionId = true then
        dbSet store obj.key obj.metadata
      else store

/-- The same transaction viewed per key: the new stored entry for the
record's own key as a function of the previous entry. This is exactly the
body of `db.Update` in main.go together with the target-time filter. -/
def stepK (targetRestoreTime : Int) (dbEntry : Option S3ObjectMetadata)
    (m : S3ObjectMetadata) : Option S3ObjectMetadata :=
  if targetRestoreTime < m.lastModified then dbEntry
  else
    match dbEntry with
    | none => some m
    | some dbObject =>
      if dbObject.lastModified < m.lastModified then some m
      else if m.lastModified = dbObject.lastModified ∧ m.isLatest = true then some m
      else if m.lastModified = dbObject.lastModified ∧ m.isLatest = false ∧
          dbObject.isLatest = false ∧ goStrLt dbObject.versionId m.versionId = true then some m
      else some dbObject

/-- The spec's resolution decision table (spec §4.3), written from the
spec's words for comparison with the code's transaction: no entry → the
record; strictly newer → the record; equal timestamps and flagged latest →
the record; equal timestamps, neither flagged latest → the record iff its
versionId is lexicographically greater; otherwise the existing entry. -/
def specResolutionDecision (existing : Option S3ObjectMetadata)
    (record : S3ObjectMetadata) : S3ObjectMetadata :=
  match existing with
  | none => record
  | some e =>
    if e.lastModified < record.lastModified then record
    else if record.lastModified = e.lastModified ∧ record.isLatest = true then record
    else if record.lastModified = e.lastModified ∧ record.isLatest = false ∧ e.isLatest = false then
      (if goStrLt e.versionId record.versionId = true then record else e)
    else e

theorem dbGet_dbSet_same (s : Store) (k : String) (v : S3ObjectMetadata) :
    dbGet (dbSet s k v) k = some v := by
  induction s with
  | nil => simp [dbGet, dbSet]
  | cons hd tl ih =>
    obtain ⟨k', w⟩ := hd
    by_cases h : k' = k <;> simp [dbGet, dbSet, h, ih]

theorem dbGet_dbSet_other (s : Store) (k k' : String) (v : S3ObjectMetadata)
    (h : k' ≠ k) : dbGet (dbSet s k v) k' = dbGet s k' := by
  have h' : ¬ k = k' := fun hh => h hh.symm
  induction s with
  | nil => simp [dbGet, dbSet, h']
  | cons hd tl ih =>
    obtain ⟨k0, w⟩ := hd
    by_cases h0 : k0 = k
    · subst h0
      simp [dbGet, dbSet, h']
    · simp [dbGet, dbSet, h0, ih]

/-- The per-object callback changes at most the record's own key, and its
effect on that key is `stepK`. -/
theorem callbackStep_dbGet (t : Int) (store : Store) (obj : S3Object) (k : String) :
    dbGet (callbackStep t store obj) k =
      if k = obj.key then stepK t (dbGet store obj.key) obj.metadata
      else dbGet store k := by
  unfold callbackStep stepK
  by_cases hf : t < obj.metadata.lastModified
  · simp only [hf, if_true]
    by_cases hk : k = obj.key <;> simp [hk]
  · simp only [hf, if_false]
    cases hg : dbGet store obj.key with
    | none =>
      by_cases hk : k = obj.key
      · subst hk; simp [hg, dbGet_dbSet_same]
      · simp [hk, dbGet_dbSet_other _ _ _ _ hk]
    | some dbObject =>
      by_cases hk : k = obj.key
      · subst hk
        by_cases h1 : dbObject.lastModified < obj.metadata.lastModified
        · simp [hg, h1, dbGet_dbSet_same]
        · by_cases h2 : obj.metadata.lastModified = dbObject.lastModified ∧ obj.metadata.isLatest = true
          · simp [hg, h1, h2, dbGet_dbSet_same]
          · by_cases h3 : obj.metadata.lastModified = dbObject.lastModified ∧
                obj.metadata.isLatest = false ∧ dbObject.isLatest = false ∧
                goStrLt dbObject.versionId obj.metadata.versionId = true
            · simp [hg, h1, h2, h3, dbGet_dbSet_same]
            · simp [hg, h1, h2, h3]
      · by_cases h1 : dbObject.lastModified < obj.metadata.lastModified
        · simp [hg, h1, hk, dbGet_dbSet_other _ _ _ _ hk]
        · by_cases h2 : obj.metadata.lastModified = dbObject.lastModified ∧ obj.metadata.isLatest = true
          · simp [hg, h1, h2, hk, dbGet_dbSet_other _ _ _ _ hk]
          · by_cases h3 : obj.metadata.lastModified = dbObject.lastModified ∧
                obj.metadata.isLatest = false ∧ dbObject.isLatest = false ∧
                goStrLt dbObject.versionId obj.metadata.versionId = true
            · simp [hg, h1, h2, h3, hk, dbGet_dbSet_other _ _ _ _ hk]
            · simp [hg, h1, h2, h3, hk]

/-- C1. For every record that passes the target-time filter and every prior
store state, the per-key resolution transaction follows the spec's decision
table: no entry → store the record; strictly newer `lastModified` →
replace; equal timestamps and the record `isLatest` → replace; equal
timestamps and neither flagged `isLatest` → replace iff the record's
`versionId` is lexicographically greater; in every other case the existing
entry is kept, and no other key is touched. -/
theorem resolution_follows_spec_table (t : Int) (store : Store) (obj : S3Object)
    (hpass : ¬ t < obj.metadata.lastModified) :
    dbGet (callbackStep t store obj) obj.key =
      some (specResolutionDecision (dbGet store obj.key) obj.metadata) ∧
    ∀ k, k ≠ obj.key → dbGet (callbackStep t store obj) k = dbGet store k := by
  constructor
  · rw [callbackStep_dbGet]
    simp only [if_pos rfl]
    unfold stepK specResolutionDecision
    simp only [hpass, if_false]
    cases hg : dbGet store obj.key with
    | none => simp
    | some dbObject =>
      by_cases h1 : dbObject.lastModified < obj.metadata.lastModified
      · simp [h1]
      · by_cases h2 : obj.metadata.lastModified = dbObject.lastModified ∧ obj.metadata.isLatest = true
        · simp [h1, h2]
        · by_cases h3 : obj.metadata.lastModified = dbObject.lastModified ∧
              obj.metadata.isLatest = false ∧ dbObject.isLatest = false
          · by_cases h4 : goStrLt dbObject.versionId obj.metadata.versionId = true
            · simp [h1, h2, h3, h4]
            · simp [h1, h2, h3, h4]
          · have h3c : ¬ (obj.metadata.lastModified = dbObject.lastModified ∧
                obj.metadata.isLatest = false ∧ dbObject.isLatest = false ∧
                goStrLt dbObject.versionId obj.metadata.versionId = true) :=
              fun hc => h3 ⟨hc.1, hc.2.1, hc.2.2.1⟩
            simp [h1, h2, h3, h3c]
  · intro k hk
    rw [callbackStep_dbGet]
    simp [hk]

/-- Witness for C1: a record at timestamp 5 with target time 10 passes the
filter, and on an empty store the transaction stores the record itself. -/
theorem resolution_follows_spec_table_witness :
    ¬ (10 : Int) < (5 : Int) ∧
    dbGet (callbackStep 10 [] ⟨"k", ⟨"v1", 5, false, true⟩⟩) "k" =
      some (specResolutionDecision (dbGet [] "k") ⟨"v1", 5, false, true⟩) := by
  refine ⟨by decide, ?_⟩
  exact (resolution_follows_spec_table 10 [] ⟨"k", ⟨"v1", 5, false, true⟩⟩ (by decide)).1

/-- C9. A record whose `lastModified` is strictly after the target time is
dropped before any store transaction: the whole store is unchanged. -/
theorem future_record_leaves_store_unchanged (t : Int) (store : Store) (obj : S3Object)
    (hafter : t < obj.metadata.lastModified) :
    callbackStep t store obj = store := by
  unfold callbackStep
  simp [hafter]

/-- Witness for C9: a record at timestamp 11 with target time 10 leaves a
concrete one-entry store exactly as it was. -/
theorem future_record_leaves_store_unchanged_witness :
    (10 : Int) < (11 : Int) ∧
    callbackStep 10 [("k", ⟨"v0", 3, false, false⟩)] ⟨"k", ⟨"v1", 11, false, true⟩⟩ =
      [("k", ⟨"v0", 3, false, false⟩)] :=
  ⟨by decide,
   future_record_leaves_store_unchanged 10 [("k", ⟨"v0", 3, false, false⟩)]
     ⟨"k", ⟨"v1", 11, false, true⟩⟩ (by decide)⟩

theorem stringDataEq {a b : String} (h : a.data = b.data) : a = b := by
  cases a; cases b; exact congrArg String.mk h

theorem charsLt_irrefl (a : List Char) : charsLt a a = false := by
  induction a with
  | nil => rfl
  | cons x xs ih => simp [charsLt, lt_irrefl, ih]

theorem charsLt_asymm : ∀ {a b : List Char}, charsLt a b = true → charsLt b a = false := by
  intro a
  induction a with
  | nil => intro b h; cases b <;> simp_all [charsLt]
  | cons x xs ih =>
    intro b h
    cases b with
    | nil => simp [charsLt] at h
    | cons y ys =>
      by_cases h1 : x < y
      · have h2 : ¬ y < x := lt_asymm h1
        simp [charsLt, h1, h2]
      · by_cases h2 : y < x
        · simp [charsLt, h1, h2] at h
        · simp [charsLt, h1, h2] at h ⊢
          exact ih h

theorem charsLt_trichot (a b : List Char) :
    charsLt a b = true ∨ charsLt b a = true ∨ a = b := by
  induction a generalizing b with
  | nil => cases b <;> simp [charsLt]
  | cons x xs ih =>
    cases b with
    | nil => simp [charsLt]
    | cons y ys =>
      by_cases h1 : x < y
      · simp [charsLt, h1]
      · by_cases h2 : y < x
        · simp [charsLt, h1, h2]
        · have hxy : x = y := le_antisymm (not_lt.mp h2) (not_lt.mp h1)
          subst hxy
          rcases ih ys with h | h | h <;> simp [charsLt, h1, h2, h]

theorem charsLt_trans : ∀ {a b c : List Char},
    charsLt a b = true → charsLt b c = true → charsLt a c = true := by
  intro a
  induction a with
  | nil =>
    intro b c hab hbc
    cases b with
    | nil => simp [charsLt] at hab
    | cons y ys =>
      cases c with
      | nil => simp [charsLt] at hbc
      | cons z zs => simp [charsLt]
  | cons x xs ih =>
    intro b c hab hbc
    cases b with
    | nil => simp [charsLt] at hab
    | cons y ys =>
      cases c with
      | nil => simp [charsLt] at hbc
      | cons z zs =>
        by_cases h1 : x < y
        · by_cases h2 : y < z
          · simp [charsLt, lt_trans h1 h2]
          · by_cases h3 : z < y
            · simp [charsLt, h2, h3] at hbc
            · have hyz : y = z := le_antisymm (not_lt.mp h3) (not_lt.mp h2)
              subst hyz
              simp [charsLt, h1]
        · by_cases h1' : y < x
          · simp [charsLt, h1, h1'] at hab
          · have hxy : x = y := le_antisymm (not_lt.mp h1') (not_lt.mp h1)
            subst hxy
            simp only [charsLt, h1, if_neg (lt_irrefl x), if_neg h1] at hab
            by_cases h2 : x < z
            · simp [charsLt, h2]
            · by_cases h3 : z < x
              · simp [charsLt, h2, h3] at hbc
              · have hxz : x = z := le_antisymm (not_lt.mp h3) (not_lt.mp h2)
                subst hxz
                simp only [charsLt, if_neg (lt_irrefl x)] at hbc ⊢
                exact ih hab hbc

theorem goStrLt_irrefl (a : String) : goStrLt a a = false := charsLt_irrefl a.data

theorem goStrLt_asymm {a b : String} (h : goStrLt a b = true) : goStrLt b a = false :=
  charsLt_asymm h

theorem goStrLt_trans {a b c : String} (hab : goStrLt a b = true)
    (hbc : goStrLt b c = true) : goStrLt a c = true := charsLt_trans hab hbc

theorem goStrLt_trichot (a b : String) :
    goStrLt a b = true ∨ goStrLt b a = true ∨ a = b := by
  rcases charsLt_trichot a.data b.data with h | h | h
  · exact Or.inl h
  · exact Or.inr (Or.inl h)
  · exact Or.inr (Or.inr (stringDataEq h))

/-- The replace relation of the transaction: the conditions under which a
newly arrived record `m` replaces the existing entry `e` (main.go's three
`txn.Set` branches for an existing entry). -/
def repl (m e : S3ObjectMetadata) : Prop :=
  e.lastModified < m.lastModified ∨
  (m.lastModified = e.lastModified ∧ m.isLatest = true) ∨
  (m.lastModified = e.lastModified ∧ m.isLatest = false ∧ e.isLatest = false ∧
    goStrLt e.versionId m.versionId = true)

instance (m e : S3ObjectMetadata) : Decidable (repl m e) := by
  unfold repl; infer_instance

/-- The winner kept in the store after applying newcomer `m` to existing
entry `e`. -/
def winner (e m : S3ObjectMetadata) : S3ObjectMetadata :=
  if repl m e then m else e

theorem stepK_filtered (t : Int) (s : Option S3ObjectMetadata) (m : S3ObjectMetadata)
    (h : t < m.lastModified) : stepK t s m = s := by
  unfold stepK; simp [h]

theorem stepK_none (t : Int) (m : S3ObjectMetadata)
    (h : ¬ t < m.lastModified) : stepK t none m = some m := by
  unfold stepK; simp [h]

theorem stepK_some (t : Int) (e m : S3ObjectMetadata) (h : ¬ t < m.lastModified) :
    stepK t (some e) m = some (winner e m) := by
  unfold stepK winner repl
  simp only [h, if_false]
  by_cases h1 : e.lastModified < m.lastModified
  · simp [h1]
  · by_cases h2 : m.lastModified = e.lastModified ∧ m.isLatest = true
    · simp [h1, h2]
    · by_cases h3 : m.lastModified = e.lastModified ∧ m.isLatest = false ∧
          e.isLatest = false ∧ goStrLt e.versionId m.versionId = true
      · simp [h1, h2, h3]
      · simp [h1, h2, h3]

theorem winner_pos {e m : S3ObjectMetadata} (h : repl m e) : winner e m = m := by
  unfold winner; simp [h]

theorem winner_neg {e m : S3ObjectMetadata} (h : ¬ repl m e) : winner e m = e := by
  unfold winner; simp [h]

/-- The replace relation is transitive. -/
theorem repl_trans {a b c : S3ObjectMetadata} (hab : repl a b) (hbc : repl b c) :
    repl a c := by
  unfold repl at hab hbc ⊢
  rcases hab with h | ⟨h1, h2⟩ | ⟨h1, h2, h3, h4⟩
  · rcases hbc with g | ⟨g1, g2⟩ | ⟨g1, g2, g3, g4⟩
    · exact Or.inl (by omega)
    · exact Or.inl (by omega)
    · exact Or.inl (by omega)
  · rcases hbc with g | ⟨g1, g2⟩ | ⟨g1, g2, g3, g4⟩
    · exact Or.inl (by omega)
    · exact Or.inr (Or.inl ⟨by omega, h2⟩)
    · exact Or.inr (Or.inl ⟨by omega, h2⟩)
  · rcases hbc with g | ⟨g1, g2⟩ | ⟨g1, g2, g3, g4⟩
    · exact Or.inl (by omega)
    · rw [g2] at h3; exact absurd h3 (by simp)
    · exact Or.inr (Or.inr ⟨by omega, h2, g3, goStrLt_trans g4 h4⟩)

/-- Compatibility of two records of one key: what actually holds of any two
distinct version records S3 returns for a key — they never carry the same
timestamp while both flagged latest, and same-timestamp non-latest records
have distinct version ids. -/
def compat (a b : S3ObjectMetadata) : Prop :=
  a = b ∨ (a.lastModified = b.lastModified →
    (¬(a.isLatest = true ∧ b.isLatest = true) ∧
     (a.isLatest = false → b.isLatest = false → a.versionId ≠ b.versionId)))

instance (a b : S3ObjectMetadata) : Decidable (compat a b) := by
  unfold compat; infer_instance

theorem repl_total {a b : S3ObjectMetadata} (hc : compat a b) (hne : a ≠ b) :
    repl a b ∨ repl b a := by
  rcases hc with he | hc
  · exact absurd he hne
  · rcases lt_trichotomy a.lastModified b.lastModified with h | h | h
    · exact Or.inr (Or.inl h)
    · obtain ⟨hnl, hvid⟩ := hc h
      cases hla : a.isLatest with
      | true => exact Or.inl (Or.inr (Or.inl ⟨h, hla⟩))
      | false =>
        cases hlb : b.isLatest with
        | true => exact Or.inr (Or.inr (Or.inl ⟨h.symm, hlb⟩))
        | false =>
          rcases goStrLt_trichot a.versionId b.versionId with hv | hv | hv
          · exact Or.inr (Or.inr (Or.inr ⟨h.symm, hlb, hla, hv⟩))
          · exact Or.inl (Or.inr (Or.inr ⟨h, hla, hlb, hv⟩))
          · exact absurd hv (hvid hla hlb)
    · exact Or.inl (Or.inl h)

theorem repl_antisymm {a b : S3ObjectMetadata} (hc : compat a b) (hne : a ≠ b) :
    ¬ (repl a b ∧ repl b a) := by
  rintro ⟨hab, hba⟩
  rcases hc with he | hc
  · exact hne he
  · unfold repl at hab hba
    rcases hab with h | ⟨h1, h2⟩ | ⟨h1, h2, h3, h4⟩
    · rcases hba with g | ⟨g1, g2⟩ | ⟨g1, g2, g3, g4⟩ <;> omega
    · rcases hba with g | ⟨g1, g2⟩ | ⟨g1, g2, g3, g4⟩
      · omega
      · exact (hc h1).1 ⟨h2, g2⟩
      · rw [h2] at g3; exact absurd g3 (by simp)
    · rcases hba with g | ⟨g1, g2⟩ | ⟨g1, g2, g3, g4⟩
      · omega
      · rw [g2] at h3; exact absurd h3 (by simp)
      · rw [goStrLt_asymm h4] at g4; exact absurd g4 (by simp)

theorem winner_swap (a b : S3ObjectMetadata) (hc : compat a b) :
    winner a b = winner b a := by
  by_cases he : a = b
  · subst he; rfl
  · by_cases h1 : repl b a
    · by_cases h2 : repl a b
      · exact absurd ⟨h2, h1⟩ (repl_antisymm hc he)
      · rw [winner_pos h1, winner_neg h2]
    · by_cases h2 : repl a b
      · rw [winner_neg h1, winner_pos h2]
      · rcases repl_total hc he with h | h
        · exact absurd h h2
        · exact absurd h h1

/-- The per-key transaction commutes on records compatible with each other,
for every prior state of the key's entry. -/
theorem stepK_comm (t : Int) (s : Option S3ObjectMetadata) (a b : S3ObjectMetadata)
    (hc : compat a b) : stepK t (stepK t s a) b = stepK t (stepK t s b) a := by
  by_cases hfa : t < a.lastModified
  · rw [stepK_filtered t s a hfa, stepK_filtered t (stepK t s b) a hfa]
  · by_cases hfb : t < b.lastModified
    · rw [stepK_filtered t s b hfb, stepK_filtered t (stepK t s a) b hfb]
    · cases s with
      | none =>
        rw [stepK_none t a hfa, stepK_none t b hfb, stepK_some t a b hfb,
          stepK_some t b a hfa, winner_swap a b hc]
      | some c =>
        rw [stepK_some t c a hfa, stepK_some t c b hfb,
          stepK_some t (winner c a) b hfb, stepK_some t (winner c b) a hfa]
        congr 1
        by_cases h1 : repl a c
        · by_cases h2 : repl b c
          · rw [winner_pos h1, winner_pos h2]
            exact winner_swap a b hc
          · have hba : ¬ repl b a := fun hh => h2 (repl_trans hh h1)
            rw [winner_pos h1, winner_neg h2, winner_neg hba, winner_pos h1]
        · by_cases h2 : repl b c
          · have hab : ¬ repl a b := fun hh => h1 (repl_trans hh h2)
            rw [winner_neg h1, winner_pos h2, winner_neg hab]
          · rw [winner_neg h1, winner_neg h2, winner_neg h1]

/-- Re-applying exactly the stored entry never changes it. -/
theorem stepK_self (t : Int) (m : S3ObjectMetadata) : stepK t (some m) m = some m := by
  unfold stepK
  by_cases h : t < m.lastModified
  · simp [h]
  · by_cases hl : m.isLatest = true <;>
      simp [h, lt_irrefl, hl, goStrLt_irrefl]

/-- C3 counterexample. The resolution rule is not commutative as claimed
for every finite set of records: two records of one key with equal
`lastModified`, both flagged `isLatest`, and distinct version ids resolve
to whichever was applied last — the two orders of applying the set
give different final entries. -/
theorem resolution_commutativity_counterexample :
    ([⟨"a", 5, false, true⟩, ⟨"b", 5, false, true⟩] : List S3ObjectMetadata).Perm
      [⟨"b", 5, false, true⟩, ⟨"a", 5, false, true⟩] ∧
    List.foldl (stepK 100) none
        [(⟨"a", 5, false, true⟩ : S3ObjectMetadata), ⟨"b", 5, false, true⟩] ≠
      List.foldl (stepK 100) none
        [(⟨"b", 5, false, true⟩ : S3ObjectMetadata), ⟨"a", 5, false, true⟩] := by
  constructor
  · exact List.Perm.swap _ _ _
  · decide

/-- C3 amended. For records of one key that are pairwise compatible (no two
distinct records share a timestamp while both flagged `isLatest`, and
same-timestamp non-latest records have distinct version ids — true of the
version listings S3 produces), resolution is permutation-invariant: any
two orders of applying the same records to an empty store yield the same
final entry; and re-applying a record already stored as the key's resolved
version leaves the whole store unchanged. -/
theorem resolution_perm_invariant_and_idempotent (t : Int)
    (l1 l2 : List S3ObjectMetadata) (hperm : l1.Perm l2)
    (hcompat : ∀ a ∈ l1, ∀ b ∈ l1, compat a b) :
    List.foldl (stepK t) none l1 = List.foldl (stepK t) none l2 ∧
    (∀ (s : Store) (obj : S3Object), dbGet s obj.key = some obj.metadata →
      ∀ k, dbGet (callbackStep t s obj) k = dbGet s k) := by
  constructor
  · exact hperm.foldl_eq' (fun x hx y hy z => stepK_comm t z x y (hcompat x hx y hy)) none
  · intro s obj hstored k
    rw [callbackStep_dbGet]
    by_cases hk : k = obj.key
    · subst hk
      rw [hstored, stepK_self]
      simp [hstored]
    · simp [hk]

/-- Witness for the amended C3 at concrete inputs: two compatible records
in both orders resolve identically, and re-applying a stored record leaves
a concrete store unchanged. -/
theorem resolution_perm_invariant_and_idempotent_witness :
    ([⟨"a", 1, false, false⟩, ⟨"b", 2, false, true⟩] : List S3ObjectMetadata).Perm
      [⟨"b", 2, false, true⟩, ⟨"a", 1, false, false⟩] ∧
    List.foldl (stepK 100) none
        [(⟨"a", 1, false, false⟩ : S3ObjectMetadata), ⟨"b", 2, false, true⟩] =
      List.foldl (stepK 100) none
        [(⟨"b", 2, false, true⟩ : S3ObjectMetadata), ⟨"a", 1, false, false⟩] ∧
    ∀ k, dbGet (callbackStep 100 [("k", ⟨"a", 1, false, false⟩)]
        ⟨"k", ⟨"a", 1, false, false⟩⟩) k =
      dbGet [("k", ⟨"a", 1, false, false⟩)] k := by
  have hperm : ([⟨"a", 1, false, false⟩, ⟨"b", 2, false, true⟩] :
      List S3ObjectMetadata).Perm [⟨"b", 2, false, true⟩, ⟨"a", 1, false, false⟩] :=
    List.Perm.swap _ _ _
  have hth := resolution_perm_invariant_and_idempotent 100 _ _ hperm (by decide)
  exact ⟨hperm, hth.1, hth.2 [("k", ⟨"a", 1, false, false⟩)]
    ⟨"k", ⟨"a", 1, false, false⟩⟩ (by decide)⟩

/-- `strings.HasPrefix` on the underlying character sequences. -/
def charsHasPfx : List Char → List Char → Bool
  | [], _ => true
  | _ :: _, [] => false
  | a :: as, b :: bs => if a = b then charsHasPfx as bs else false

/-- Go `strings.HasPrefix(s, p)`. -/
def goHasPfx (s p : String) : Bool := charsHasPfx p.data s.data

/-- Go `strings.TrimPrefix(s, p)`: drop `p` from the front of `s` when it
is a prefix, otherwise return `s` unchanged. -/
def goTrimPfx (s p : String) : String :=
  if goHasPfx s p then String.mk (s.data.drop p.data.length) else s

/-- Go `strings.Count(s, "/")` for the single-character separator: the
number of `/` characters in `s`. -/
def countSep (s : String) : Nat := s.data.count '/'

/-- `ExclusionMatcher` from pkg/s3scanner/exclusion.go: the two tiers of
classified exclusion paths actually present in the code. -/
structure ExclusionMatcher where
  rootExclusions : List String
  objectExclusions : List String
deriving Repr, DecidableEq

/-- `isRootLevelExclusion` from exclusion.go: with no configured roots, a
path with exactly one separator; otherwise, for some root, either the root
is empty and the path has exactly one separator, or the path extends the
root by exactly one more separator level. -/
def isRootLevelExclusion (exclude : String) (rootPrefixes : List String) : Bool :=
  if rootPrefixes.length = 0 then countSep exclude == 1
  else rootPrefixes.any (fun rootPfx =>
    if rootPfx = "" then countSep exclude == 1
    else goHasPfx exclude rootPfx && countSep (goTrimPfx exclude rootPfx) == 1)

/-- `classifyExclusions` from exclusion.go: each supplied path is appended
to `rootExclusions` when `isRootLevelExclusion` holds, else to
`objectExclusions`, preserving input order. -/
def classifyExclusions : List String → List String → ExclusionMatcher
  | [], _ => ⟨[], []⟩
  | e :: rest, roots =>
    let m := classifyExclusions rest roots
    if isRootLevelExclusion e roots then ⟨e :: m.rootExclusions, m.objectExclusions⟩
    else ⟨m.rootExclusions, e :: m.objectExclusions⟩

/-- `NewExclusionMatcher` from exclusion.go: empty exclusion input yields
the empty matcher without classification. -/
def NewExclusionMatcher (excludePaths rootPrefixes : List String) : ExclusionMatcher :=
  if excludePaths.length = 0 then ⟨[], []⟩
  else classifyExclusions excludePaths rootPrefixes

/-- `ExclusionMatcher.ShouldSkipRootFolder` from exclusion.go. -/
def ShouldSkipRootFolder (e : ExclusionMatcher) (folderPfx : String) : Bool :=
  e.rootExclusions.any (fun r => goHasPfx folderPfx r)

/-- `ExclusionMatcher.ShouldSkipObject` from exclusion.go. -/
def ShouldSkipObject (e : ExclusionMatcher) (objectKey : String) : Bool :=
  e.objectExclusions.any (fun r => goHasPfx objectKey r)

theorem classifyExclusions_filter (ps roots : List String) :
    classifyExclusions ps roots =
      ⟨ps.filter (fun e => isRootLevelExclusion e roots),
       ps.filter (fun e => !(isRootLevelExclusion e roots))⟩ := by
  induction ps with
  | nil => rfl
  | cons e rest ih =>
    by_cases h : isRootLevelExclusion e roots = true <;>
      simp [classifyExclusions, ih, List.filter, h]

/-- C7 counterexample. A supplied exclusion path exactly equal to a
configured scan root is not put in a bucket-level tier (the matcher has no
such tier and no `ShouldSkipBucket` operation exists in the code): it is
classified into `objectExclusions`. The claim's three-tier classification
with a bucket level is false at this input. -/
theorem exclusion_bucket_tier_counterexample :
    (NewExclusionMatcher ["a/b/c/"] ["a/b/c/"]).rootExclusions = [] ∧
    (NewExclusionMatcher ["a/b/c/"] ["a/b/c/"]).objectExclusions = ["a/b/c/"] := by
  decide

/-- C7 amended. Construction classifies every supplied exclusion path into
exactly one of two disjoint tiers: root-level iff `isRootLevelExclusion`
holds for it against the configured scan roots (exactly one separator
level below some root, with the empty-roots special case), otherwise
object-level. There is no bucket-level tier and no `ShouldSkipBucket`
operation; a path exactly equal to a configured scan root lands in the
object tier. -/
theorem exclusion_two_tier_classification (excludePaths rootPrefixes : List String) :
    (NewExclusionMatcher excludePaths rootPrefixes).rootExclusions =
      excludePaths.filter (fun e => isRootLevelExclusion e rootPrefixes) ∧
    (NewExclusionMatcher excludePaths rootPrefixes).objectExclusions =
      excludePaths.filter (fun e => !(isRootLevelExclusion e rootPrefixes)) ∧
    List.Disjoint (NewExclusionMatcher excludePaths rootPrefixes).rootExclusions
      (NewExclusionMatcher excludePaths rootPrefixes).objectExclusions := by
  have hm : NewExclusionMatcher excludePaths rootPrefixes =
      ⟨excludePaths.filter (fun e => isRootLevelExclusion e rootPrefixes),
       excludePaths.filter (fun e => !(isRootLevelExclusion e rootPrefixes))⟩ := by
    unfold NewExclusionMatcher
    by_cases h : excludePaths.length = 0
    · have : excludePaths = [] := List.eq_nil_of_length_eq_zero h
      subst this
      simp
    · rw [if_neg h, classifyExclusions_filter]
  refine ⟨by rw [hm], by rw [hm], ?_⟩
  intro p hr ho
  rw [hm] at hr
  rw [hm] at ho
  simp only [List.mem_filter] at hr ho
  rw [hr.2] at ho
  exact absurd ho.2 (by simp)

/-- One delete-marker or version entry of a `ListObjectVersions` response
(`types.DeleteMarkerEntry` / `types.ObjectVersion`, the fields read by
`fetchFolder`). -/
structure VersionEntry where
  key : String
  versionId : String
  lastModified : Int
  isLatest : Bool
deriving Repr, DecidableEq

/-- One `ListObjectVersions` response page, the fields read by
`fetchFolder`. Pagination markers are represented by the position in the
response stream. -/
structure ListPage where
  deleteMarkers : List VersionEntry
  versions : List VersionEntry
  commonPrefixes : List String
  isTruncated : Bool
deriving Repr, DecidableEq

/-- The `S3Object` that `fetchFolder` builds from a delete-marker entry. -/
def delMarkerObj (d : VersionEntry) : S3Object :=
  ⟨d.key, ⟨d.versionId, d.lastModified, true, d.isLatest⟩⟩

/-- The `S3Object` that `fetchFolder` builds from a version entry. -/
def versionObj (v : VersionEntry) : S3Object :=
  ⟨v.key, ⟨v.versionId, v.lastModified, false, v.isLatest⟩⟩

/-- All records one response page sends to the object channel, in the
code's order: delete markers first, then versions. -/
def pageObjects (p : ListPage) : List S3Object :=
  p.deleteMarkers.map delMarkerObj ++ p.versions.map versionObj

/-- The outcome of `fetchFolder` on one folder: pages fetched, records
sent to the object channel, child folder prefixes passed to `addFolder`,
and the listing error if one occurred. -/
structure FetchResult where
  pageCount : Nat
  emitted : List S3Object
  discovered : List String
  fetchErr : Option String
deriving Repr, DecidableEq

/-- `Scanner.fetchFolder` from s3scanner.go, over the stream of successive
`ListObjectVersions` responses for one `(prefix, delimiter)`: loop pages
until one is not truncated, per page emitting every delete marker and
every version to the object channel and adding every common prefix as a
child folder; a listing error ends the folder with a wrapped error. The
empty-stream case is unreachable under the client contract that a
response stream ends with a non-truncated page. -/
def fetchFolder : List (Except String ListPage) → FetchResult
  | [] => ⟨0, [], [], none⟩
  | Except.error e :: _ => ⟨1, [], [], some e⟩
  | Except.ok p :: rest =>
    if p.isTruncated then
      let r := fetchFolder rest
      ⟨r.pageCount + 1, pageObjects p ++ r.emitted, p.commonPrefixes ++ r.discovered, r.fetchErr⟩
    else ⟨1, pageObjects p, p.commonPrefixes, none⟩

/-- The listed records of a response stream: every delete-marker and
version entry of every page the fetch loop reaches. -/
def processedObjects : List (Except String ListPage) → List S3Object
  | [] => []
  | Except.error _ :: _ => []
  | Except.ok p :: rest =>
    if p.isTruncated then pageObjects p ++ processedObjects rest else pageObjects p

/-- C5 counterexample. `fetchFolder` consults no exclusion matcher: a
version entry whose key matches an object-level exclusion prefix of a
matcher built from that exclusion is nevertheless emitted to the
per-record processing function. -/
theorem scan_object_exclusion_counterexample :
    ShouldSkipObject (NewExclusionMatcher ["app/cache/temp/"] [""])
      "app/cache/temp/file.txt" = true ∧
    versionObj ⟨"app/cache/temp/file.txt", "v1", 1, true⟩ ∈
      (fetchFolder [Except.ok ⟨[], [⟨"app/cache/temp/file.txt", "v1", 1, true⟩], [], false⟩]).emitted := by
  decide

/-- C5 amended. During a scan every delete-marker and version entry
returned by the listing is constructed into a record and handed to the
per-record processing function unconditionally: the emitted records are
exactly the listed entries, and an entry is emitted even when some
exclusion matcher's object-level check rejects its key (`ShouldSkipObject`
is never consulted by `fetchFolder`). -/
theorem scan_emits_all_listed_records (pages : List (Except String ListPage)) :
    (fetchFolder pages).emitted = processedObjects pages ∧
    ∀ (m : ExclusionMatcher) (o : S3Object), o ∈ processedObjects pages →
      ShouldSkipObject m o.key = true → o ∈ (fetchFolder pages).emitted := by
  have he : ∀ ps : List (Except String ListPage),
      (fetchFolder ps).emitted = processedObjects ps := by
    intro ps
    induction ps with
    | nil => rfl
    | cons hd rest ih =>
      cases hd with
      | error e => rfl
      | ok p =>
        by_cases ht : p.isTruncated = true <;>
          simp [fetchFolder, processedObjects, ht, ih]
  refine ⟨he pages, ?_⟩
  intro m o ho _
  rw [he pages]
  exact ho

/-- Witness for the amended C5: a concrete listed entry whose key an
exclusion matcher rejects is still among the emitted records. -/
theorem scan_emits_all_listed_records_witness :
    versionObj ⟨"app/cache/temp/file.txt", "v1", 1, true⟩ ∈
      processedObjects [Except.ok ⟨[], [⟨"app/cache/temp/file.txt", "v1", 1, true⟩], [], false⟩] ∧
    ShouldSkipObject (NewExclusionMatcher ["app/cache/temp/"] [""])
      (versionObj ⟨"app/cache/temp/file.txt", "v1", 1, true⟩).key = true ∧
    versionObj ⟨"app/cache/temp/file.txt", "v1", 1, true⟩ ∈
      (fetchFolder [Except.ok ⟨[], [⟨"app/cache/temp/file.txt", "v1", 1, true⟩], [], false⟩]).emitted := by
  refine ⟨by decide, by decide, ?_⟩
  exact (scan_emits_all_listed_records
      [Except.ok ⟨[], [⟨"app/cache/temp/file.txt", "v1", 1, true⟩], [], false⟩]).2
    (NewExclusionMatcher ["app/cache/temp/"] [""]) _ (by decide) (by decide)

/-- The outcome of one call of the per-record processing function: a nil
error, a non-nil error, or a Go panic with the recovered value's text. -/
inductive FnOutcome where
  | ok : FnOutcome
  | fail : String → FnOutcome
  | fault : String → FnOutcome
deriving Repr, DecidableEq

/-- The state of the per-folder record consumer goroutine of `Scan`
(s3scanner.go) when it returns: the processing function's final state, the
records actually passed to the processing function, the logger lines
written, and the argument passed to `stats.addObjects` — `none` when a
panic unwound the loop before the count was added. -/
structure ConsumeResult (σ : Type) where
  state : σ
  handled : List S3Object
  log : List String
  counted : Option Nat
deriving Repr, DecidableEq

/-- The record consumer loop of `Scan` (s3scanner.go): for each record
from the channel, increment `i` and call `fn`; a non-nil error is logged
and the loop continues; a panic unwinds the loop to the deferred recover,
which logs it — the loop does not resume and `stats.addObjects` is
skipped. The processing function may carry state (main.go's callback
mutates the store). -/
def consumeObjects {σ : Type} (fn : σ → S3Object → σ × FnOutcome) :
    List S3Object → σ → Nat → List S3Object → List String → ConsumeResult σ
  | [], s, i, h, lg => ⟨s, h, lg, some i⟩
  | o :: rest, s, i, h, lg =>
    match fn s o with
    | (s', FnOutcome.ok) => consumeObjects fn rest s' (i + 1) (h ++ [o]) lg
    | (s', FnOutcome.fail m) =>
      consumeObjects fn rest s' (i + 1) (h ++ [o])
        (lg ++ ["Error in object processing function: " ++ m])
    | (s', FnOutcome.fault m) =>
      ⟨s', h ++ [o], lg ++ ["Object processing function panicked: " ++ m], none⟩

/-- The consumer goroutine for one folder, started on its fresh channel. -/
def runConsumer {σ : Type} (fn : σ → S3Object → σ × FnOutcome)
    (objs : List S3Object) (s : σ) : ConsumeResult σ :=
  consumeObjects fn objs s 0 [] []

theorem consumeObjects_fault {σ : Type} (fn : σ → S3Object → σ × FnOutcome)
    (pre : List S3Object) (p : S3Object) (post : List S3Object) (msg : String)
    (hpre : ∀ (st : σ) (o : S3Object), o ∈ pre → ∀ m, (fn st o).2 ≠ FnOutcome.fault m)
    (hp : ∀ st : σ, (fn st p).2 = FnOutcome.fault msg) :
    ∀ (s : σ) (i : Nat) (h : List S3Object) (lg : List String),
      (consumeObjects fn (pre ++ p :: post) s i h lg).handled = h ++ pre ++ [p] ∧
      (consumeObjects fn (pre ++ p :: post) s i h lg).counted = none ∧
      ∃ lg', (consumeObjects fn (pre ++ p :: post) s i h lg).log =
        lg' ++ ["Object processing function panicked: " ++ msg] := by
  induction pre with
  | nil =>
    intro s i h lg
    have hps := hp s
    simp only [List.nil_append]
    cases hfn : fn s p with
    | mk s' r =>
      rw [hfn] at hps
      simp only at hps
      subst hps
      simp [consumeObjects, hfn]
  | cons o pre' ih =>
    intro s i h lg
    have ho : o ∈ o :: pre' := List.mem_cons_self o pre'
    have hpre' : ∀ (st : σ) (o' : S3Object), o' ∈ pre' → ∀ m, (fn st o').2 ≠ FnOutcome.fault m :=
      fun st o' ho' m => hpre st o' (List.mem_cons_of_mem o ho') m
    cases hfn : fn s o with
    | mk s' r =>
      cases r with
      | ok =>
        simp only [List.cons_append, consumeObjects, hfn]
        have := ih hpre' s' (i + 1) (h ++ [o]) lg
        simpa [List.append_assoc] using this
      | fail m =>
        simp only [List.cons_append, consumeObjects, hfn]
        have := ih hpre' s' (i + 1) (h ++ [o])
          (lg ++ ["Error in object processing function: " ++ m])
        simpa [List.append_assoc] using this
      | fault m =>
        exact absurd (by rw [hfn]) (hpre s o ho m)

/-- C8 counterexample. When the processing function panics on the second
of three records of a folder, the folder's third record is never passed to
the processing function: the panic unwinds the consumer loop to the
goroutine-level recover, so the remaining records are not processed. -/
theorem consumer_fault_skips_rest_counterexample :
    (⟨"c", ⟨"v3", 3, false, false⟩⟩ : S3Object) ∉
      (runConsumer
        (fun (_ : Unit) o =>
          ((), if o.key = "b" then FnOutcome.fault "boom" else FnOutcome.ok))
        [⟨"a", ⟨"v1", 1, false, false⟩⟩, ⟨"b", ⟨"v2", 2, false, false⟩⟩,
         ⟨"c", ⟨"v3", 3, false, false⟩⟩] ()).handled := by
  decide

/-- C8 amended. A panic of the per-record processing function is caught by
the per-folder recover and logged, never crashing the process or reaching
the caller of `Scan` (the consumer returns a normal result whose log ends
with the panic line); however the folder's remaining records beyond the
faulting one are NOT processed — the records handed to the function are
exactly those up to and including the faulting one, and the folder's
object count is never added. -/
theorem consumer_fault_recovered {σ : Type} (fn : σ → S3Object → σ × FnOutcome)
    (pre : List S3Object) (p : S3Object) (post : List S3Object) (msg : String) (s : σ)
    (hpre : ∀ (st : σ) (o : S3Object), o ∈ pre → ∀ m, (fn st o).2 ≠ FnOutcome.fault m)
    (hp : ∀ st : σ, (fn st p).2 = FnOutcome.fault msg) :
    (runConsumer fn (pre ++ p :: post) s).handled = pre ++ [p] ∧
    (runConsumer fn (pre ++ p :: post) s).counted = none ∧
    ∃ lg', (runConsumer fn (pre ++ p :: post) s).log =
      lg' ++ ["Object processing function panicked: " ++ msg] := by
  have := consumeObjects_fault fn pre p post msg hpre hp s 0 [] []
  simpa [runConsumer] using this

/-- Witness for the amended C8: with a function that panics on the second
record, the consumer handles exactly the first two records, skips the
count, and logs the panic. -/
theorem consumer_fault_recovered_witness :
    (runConsumer
        (fun (_ : Unit) o =>
          ((), if o.key = "b" then FnOutcome.fault "boom" else FnOutcome.ok))
        [⟨"a", ⟨"v1", 1, false, false⟩⟩, ⟨"b", ⟨"v2", 2, false, false⟩⟩,
         ⟨"c", ⟨"v3", 3, false, false⟩⟩] ()).handled =
      [⟨"a", ⟨"v1", 1, false, false⟩⟩] ++ [⟨"b", ⟨"v2", 2, false, false⟩⟩] ∧
    (runConsumer
        (fun (_ : Unit) o =>
          ((), if o.key = "b" then FnOutcome.fault "boom" else FnOutcome.ok))
        [⟨"a", ⟨"v1", 1, false, false⟩⟩, ⟨"b", ⟨"v2", 2, false, false⟩⟩,
         ⟨"c", ⟨"v3", 3, false, false⟩⟩] ()).counted = none ∧
    ∃ lg', (runConsumer
        (fun (_ : Unit) o =>
          ((), if o.key = "b" then FnOutcome.fault "boom" else FnOutcome.ok))
        [⟨"a", ⟨"v1", 1, false, false⟩⟩, ⟨"b", ⟨"v2", 2, false, false⟩⟩,
         ⟨"c", ⟨"v3", 3, false, false⟩⟩] ()).log =
      lg' ++ ["Object processing function panicked: boom"] := by
  have h := consumer_fault_recovered
    (fun (_ : Unit) o =>
      ((), if o.key = "b" then FnOutcome.fault "boom" else FnOutcome.ok))
    [⟨"a", ⟨"v1", 1, false, false⟩⟩] ⟨"b", ⟨"v2", 2, false, false⟩⟩
    [⟨"c", ⟨"v3", 3, false, false⟩⟩] "boom" ()
    (by
      intro st o ho m
      simp only [List.mem_singleton] at ho
      subst ho
      simp)
    (by intro st; simp)
  simpa using h

/-- Association-list lookup for the transaction-fault oracle. -/
def lookupStr : List (String × String) → String → Option String
  | [], _ => none
  | (k, v) :: rest, key => if k = key then some v else lookupStr rest key

/-- The per-object callback of main.go with its error path: a `db.Update`
transaction whose Get/Value/Set fails (injected by the `faults` oracle,
keyed by object key, modelling store I/O failure or corruption) makes the
callback return the error wrapped with the offending key, leaving the
store untouched; otherwise the callback runs the resolution transaction
and returns nil. -/
def callbackWithErrors (faults : List (String × String)) (targetRestoreTime : Int) :
    Store → S3Object → Store × FnOutcome :=
  fun store obj =>
    if targetRestoreTime < obj.metadata.lastModified then (store, FnOutcome.ok)
    else
      match lookupStr faults obj.key with
      | some emsg =>
        (store, FnOutcome.fail ("error handling key " ++ obj.key ++ ": " ++ emsg))
      | none => (callbackStep targetRestoreTime store obj, FnOutcome.ok)

/-- C6. A resolution-store transaction failure is surfaced as a hard
error wrapped with the offending key, and the scan's record consumer does
not swallow it as a normal resolution: the callback returns a non-nil
error naming the key, the store keeps no entry change for it, and the
consumer loop writes the error to the log instead of treating the record
as resolved. -/
theorem txn_failure_surfaced (faults : List (String × String)) (t : Int)
    (store : Store) (obj : S3Object) (emsg : String)
    (hfault : lookupStr faults obj.key = some emsg)
    (hpass : ¬ t < obj.metadata.lastModified) :
    callbackWithErrors faults t store obj =
      (store, FnOutcome.fail ("error handling key " ++ obj.key ++ ": " ++ emsg)) ∧
    (runConsumer (callbackWithErrors faults t) [obj] store).state = store ∧
    (runConsumer (callbackWithErrors faults t) [obj] store).log =
      ["Error in object processing function: " ++
        ("error handling key " ++ obj.key ++ ": " ++ emsg)] := by
  have hcb : callbackWithErrors faults t store obj =
      (store, FnOutcome.fail ("error handling key " ++ obj.key ++ ": " ++ emsg)) := by
    unfold callbackWithErrors
    rw [if_neg hpass, hfault]
  refine ⟨hcb, ?_, ?_⟩
  · simp [runConsumer, consumeObjects, hcb]
  · simp [runConsumer, consumeObjects, hcb]

/-- Witness for C6: a concrete key with an injected transaction fault is
reported through the wrapped error and the consumer log. -/
theorem txn_failure_surfaced_witness :
    lookupStr [("k", "io failure")] "k" = some "io failure" ∧
    ¬ (10 : Int) < (1 : Int) ∧
    callbackWithErrors [("k", "io failure")] 10 [] ⟨"k", ⟨"v1", 1, false, false⟩⟩ =
      ([], FnOutcome.fail ("error handling key " ++ "k" ++ ": " ++ "io failure")) ∧
    (runConsumer (callbackWithErrors [("k", "io failure")] 10)
        [⟨"k", ⟨"v1", 1, false, false⟩⟩] []).log =
      ["Error in object processing function: " ++
        ("error handling key " ++ "k" ++ ": " ++ "io failure")] := by
  have h := txn_failure_surfaced [("k", "io failure")] 10 []
    ⟨"k", ⟨"v1", 1, false, false⟩⟩ "io failure" (by decide) (by decide)
  exact ⟨by decide, by decide, h.1, h.2.2⟩

/-- `types.BucketVersioningStatus`: `Enabled`, `Suspended`, or the zero
value returned for a never-versioned bucket. -/
inductive BucketVersioningStatus where
  | enabled : BucketVersioningStatus
  | suspended : BucketVersioningStatus
  | unset : BucketVersioningStatus
deriving Repr, DecidableEq

/-- One remote API call performed by the scanner, for call-trace
reasoning. -/
inductive ApiCall where
  | getBucketVersioning : String → ApiCall
  | listObjectVersions : String → String → String → ApiCall
deriving Repr, DecidableEq

/-- The S3 client (`S3ClientAPI`): the versioning answer for the bucket
and, per `(prefix, delimiter)`, the stream of listing response pages. -/
structure ClientModel where
  versioning : Except String BucketVersioningStatus
  pages : String → String → List (Except String ListPage)

/-- The error results of `Scan` (s3scanner.go): a wrapped
`GetBucketVersioning` failure, or `NonVersionedBucketError` carrying the
bucket name. -/
inductive ScanError where
  | versioningCheckFailed : String → ScanError
  | nonVersionedBucket : String → ScanError
deriving Repr, DecidableEq

/-- `BucketStatistics` from bucket.go. The Go fields are `uint64` atomic
counters; scans never approach the wrap-around, so they are modelled as
`Nat`. -/
structure BucketStatistics where
  pages : Nat
  objects : Nat
deriving Repr, DecidableEq

/-- `bucketFolder` from bucket.go: one unit of traversal work. Child
folders are enqueued with only a prefix, so their delimiter is Go's zero
value `""`; only the seeded root folder carries delimiter `"/"`. -/
structure bucketFolder where
  pfx : String
  delim : String
deriving Repr, DecidableEq

/-- The `bucket` fields relevant to the close decision (bucket.go): the
bucket name and the configured scan root. -/
structure bucketModel where
  name : String
  root : String
deriving Repr, DecidableEq

/-- `bucket.isRoot` from bucket.go: the folder whose prefix is the scan
root and whose delimiter is `"/"`. -/
def bucketIsRoot (b : bucketModel) (f : bucketFolder) : Bool :=
  f.pfx == b.root && f.delim == "/"

/-- The result of a completed scan: final statistics, the processing
function's final state, and the logger lines. -/
structure ScanOutcome (σ : Type) where
  stats : BucketStatistics
  finalState : σ
  log : List String

/-- The folder-processing loop of `Scan` (s3scanner.go), sequentialized:
take the next folder from the queue, fetch its pages, run the record
consumer over the emitted records, add the page count (and the object
count unless a panic skipped it), append the discovered child folders
(delimiter `""`), and mark the queue closed when the finished folder is
the root. An empty queue ends the loop if the channel is closed, else the
range blocks forever (`none`); `fuel` bounds the dynamically discovered
folder count, `none` on exhaustion. -/
def scanFolders {σ : Type} (client : ClientModel) (b : bucketModel)
    (fn : σ → S3Object → σ × FnOutcome) :
    Nat → List bucketFolder → Bool → BucketStatistics → σ → List String → List ApiCall →
    Option (ScanOutcome σ) × List ApiCall
  | 0, _, _, _, _, _, tr => (none, tr)
  | _ + 1, [], closed, stats, s, lg, tr =>
    if closed then (some ⟨stats, s, lg⟩, tr) else (none, tr)
  | fuel + 1, f :: queue, closed, stats, s, lg, tr =>
    let pr := fetchFolder (client.pages f.pfx f.delim)
    let cr := runConsumer fn pr.emitted s
    let stats' : BucketStatistics :=
      ⟨stats.pages + pr.pageCount, stats.objects + cr.counted.getD 0⟩
    let lg' := lg ++ cr.log ++
      (match pr.fetchErr with
       | some e => ["Failed to fetch prefix " ++ f.pfx ++ ": " ++ e]
       | none => [])
    let tr' := tr ++ List.replicate pr.pageCount (ApiCall.listObjectVersions b.name f.pfx f.delim)
    scanFolders client b fn fuel (queue ++ pr.discovered.map (fun p => ⟨p, ""⟩))
      (closed || bucketIsRoot b f) stats' cr.state lg' tr'

/-- `Scanner.Scan` from s3scanner.go: first call `GetBucketVersioning`
once; a call error is returned wrapped; a status other than enabled
returns `NonVersionedBucketError` with nil statistics; only then is the
bucket seeded with the root folder and the traversal loop run. The second
component is the trace of remote calls made. -/
def scanBucket {σ : Type} (client : ClientModel) (bucketName pfx : String)
    (fn : σ → S3Object → σ × FnOutcome) (s : σ) (fuel : Nat) :
    Except ScanError (Option (ScanOutcome σ)) × List ApiCall :=
  match client.versioning with
  | Except.error e =>
    (Except.error (ScanError.versioningCheckFailed
        ("failed to get bucket versioning for " ++ bucketName ++ ": " ++ e)),
      [ApiCall.getBucketVersioning bucketName])
  | Except.ok status =>
    if status = BucketVersioningStatus.enabled then
      let res := scanFolders client ⟨bucketName, pfx⟩ fn fuel [⟨pfx, "/"⟩] false
        ⟨0, 0⟩ s [] [ApiCall.getBucketVersioning bucketName]
      (Except.ok res.1, res.2)
    else (Except.error (ScanError.nonVersionedBucket bucketName),
      [ApiCall.getBucketVersioning bucketName])

/-- C4. For every bucket whose versioning status is anything other than
enabled, `Scan` returns the distinct `NonVersionedBucketError` and no
statistics, before any listing call: the remote-call trace is exactly one
up-front `GetBucketVersioning` and nothing else. -/
theorem scan_nonversioned_fails_fast {σ : Type} (client : ClientModel)
    (bucketName pfx : String) (fn : σ → S3Object → σ × FnOutcome) (s : σ) (fuel : Nat)
    (status : BucketVersioningStatus)
    (hok : client.versioning = Except.ok status)
    (hne : status ≠ BucketVersioningStatus.enabled) :
    scanBucket client bucketName pfx fn s fuel =
      (Except.error (ScanError.nonVersionedBucket bucketName),
        [ApiCall.getBucketVersioning bucketName]) := by
  unfold scanBucket
  rw [hok]
  simp [hne]

/-- Witness for C4: a suspended-versioning bucket produces exactly the
non-versioned error and the single versioning call. -/
theorem scan_nonversioned_fails_fast_witness :
    (⟨Except.ok BucketVersioningStatus.suspended, fun _ _ => []⟩ :
        ClientModel).versioning = Except.ok BucketVersioningStatus.suspended ∧
    BucketVersioningStatus.suspended ≠ BucketVersioningStatus.enabled ∧
    scanBucket ⟨Except.ok BucketVersioningStatus.suspended, fun _ _ => []⟩
        "bkt" "" (fun (_ : Unit) _ => ((), FnOutcome.ok)) () 5 =
      (Except.error (ScanError.nonVersionedBucket "bkt"),
        [ApiCall.getBucketVersioning "bkt"]) := by
  refine ⟨rfl, by decide, ?_⟩
  exact scan_nonversioned_fails_fast ⟨Except.ok BucketVersioningStatus.suspended, fun _ _ => []⟩
    "bkt" "" (fun (_ : Unit) _ => ((), FnOutcome.ok)) () 5
    BucketVersioningStatus.suspended rfl (by decide)

/-- The observable traversal state of a scan: the folder-channel contents
(enqueued, not yet picked up), the folders being fetched by workers, the
folders whose processing completed, whether `closeFolders` has run, and
whether some `addFolder` sent on the already-closed channel (a Go runtime
panic). -/
structure TraversalState where
  queue : List bucketFolder
  active : List bucketFolder
  completed : List bucketFolder
  closed : Bool
  sendOnClosed : Bool
deriving Repr, DecidableEq

/-- One scheduler event of the concurrent traversal: a worker picks up the
folder at the head of the channel, or a worker finishes a folder's fetch,
having discovered the given child prefixes. -/
inductive TravEvent where
  | startTask : bucketFolder → TravEvent
  | finishTask : bucketFolder → List String → TravEvent
deriving Repr, DecidableEq

/-- The traversal transition relation of `Scan` (s3scanner.go lines
153—198 with bucket.go): picking up a folder moves it from the channel to
a worker; finishing a folder enqueues its discovered children via
`addFolder` (delimiter `""`), completes the folder, and — per the code —
runs `closeFolders` exactly when the finished folder satisfies
`b.isRoot`; enqueueing after the close (by a different task) is a send on
a closed channel. Invalid events leave the state unchanged. -/
def travStep (b : bucketModel) (st : TraversalState) (ev : TravEvent) : TraversalState :=
  match ev with
  | TravEvent.startTask f =>
    match st.queue with
    | f0 :: rest =>
      if f0 = f then { st with queue := rest, active := st.active ++ [f] } else st
    | [] => st
  | TravEvent.finishTask f children =>
    if f ∈ st.active then
      { queue := st.queue ++ children.map (fun p => ⟨p, ""⟩),
        active := st.active.erase f,
        completed := st.completed ++ [f],
        closed := st.closed || bucketIsRoot b f,
        sendOnClosed := st.sendOnClosed || (st.closed && !children.isEmpty) }
    else st

/-- A scheduled execution of the traversal from a given state. -/
def travRun (b : bucketModel) (st : TraversalState) (evs : List TravEvent) : TraversalState :=
  evs.foldl (travStep b) st

/-- The initial traversal state of `newBucket`: the root folder seeded
with delimiter `"/"`, channel open. -/
def initialTraversal (pfx : String) : TraversalState :=
  ⟨[⟨pfx, "/"⟩], [], [], false, false⟩

/-- C2 counterexample. The work queue is closed merely because the
distinguished root task finished: in the execution where the root folder
is picked up and finishes having discovered child `a/`, the channel is
closed while the enqueued child task has not completed (it is still in
the queue) — the close is not gated on an outstanding-task count reaching
zero. -/
theorem queue_closed_with_outstanding_task_counterexample :
    (travRun ⟨"bkt", ""⟩ (initialTraversal "")
        [TravEvent.startTask ⟨"", "/"⟩, TravEvent.finishTask ⟨"", "/"⟩ ["a/"]]).closed = true ∧
    (travRun ⟨"bkt", ""⟩ (initialTraversal "")
        [TravEvent.startTask ⟨"", "/"⟩, TravEvent.finishTask ⟨"", "/"⟩ ["a/"]]).queue =
      [⟨"a/", ""⟩] ∧
    (⟨"a/", ""⟩ : bucketFolder) ∉
      (travRun ⟨"bkt", ""⟩ (initialTraversal "")
        [TravEvent.startTask ⟨"", "/"⟩, TravEvent.finishTask ⟨"", "/"⟩ ["a/"]]).completed := by
  decide

/-- C2 amended. The queue-close decision is keyed solely to the identity
of the finishing task: a traversal step closes the still-open queue
exactly when the event is the completion of an active folder satisfying
`bucket.isRoot` (prefix equal to the scan root, delimiter `"/"`),
independently of how many enqueued or active tasks remain outstanding.
(In this design only the root folder is fetched with a non-empty
delimiter, so only the root task receives common prefixes and enqueues
children; the close can still occur while child tasks are outstanding,
as the counterexample execution shows.) -/
theorem queue_close_keyed_to_root_task (b : bucketModel) (st : TraversalState)
    (ev : TravEvent) :
    (travStep b st ev).closed =
      (st.closed ||
        (match ev with
         | TravEvent.finishTask f _ => decide (f ∈ st.active) && bucketIsRoot b f
         | TravEvent.startTask _ => false)) := by
  cases ev with
  | startTask f =>
    cases hq : st.queue with
    | nil => simp [travStep, hq]
    | cons f0 rest =>
      by_cases hf : f0 = f <;> simp [travStep, hq, hf]
  | finishTask f children =>
    by_cases hf : f ∈ st.active <;> simp [travStep, hf]

/-- `Scanner` from s3scanner.go: context, client, the logger (modelled by
its output sink, initially the discard sink), and the worker-pool channel
(modelled by its capacity and the number of free tokens put into it). -/
structure ScannerModel (C K : Type) where
  ctx : K
  client : C
  loggerOutput : List String
  workerPoolCap : Nat
  workerPoolTokens : Nat
deriving Repr, DecidableEq

/-- `NewScanner` from s3scanner.go: make the worker-pool channel with
capacity `maxConcurrentScans`, fill it with that many tokens, and return
the scanner with a nil error. A negative capacity is a Go runtime panic
in `make` (modelled as the `Except.error` case); there is no other
failure path. -/
def NewScanner {C K : Type} (s3Client : C) (ctx : K) (maxConcurrentScans : Int) :
    Except String (ScannerModel C K × Option String) :=
  if maxConcurrentScans < 0 then Except.error "makechan: size out of range"
  else Except.ok
    ({ ctx := ctx, client := s3Client, loggerOutput := [],
       workerPoolCap := maxConcurrentScans.toNat,
       workerPoolTokens := maxConcurrentScans.toNat }, none)

/-- C10. For every client, context, and non-negative `maxConcurrentScans`,
`NewScanner` returns a scanner and a nil error — it has no validation or
failure path — and the worker pool holds exactly `maxConcurrentScans`
tokens, so a bound of zero yields an empty worker pool. -/
theorem newScanner_never_fails {C K : Type} (s3Client : C) (ctx : K) (n : Int)
    (h : 0 ≤ n) :
    NewScanner s3Client ctx n =
      Except.ok
        ({ ctx := ctx, client := s3Client, loggerOutput := [],
           workerPoolCap := n.toNat, workerPoolTokens := n.toNat }, none) := by
  unfold NewScanner
  rw [if_neg (not_lt.mpr h)]

/-- Witness for C10 at the boundary input zero: a scanner with an empty
worker pool and a nil error. -/
theorem newScanner_never_fails_witness :
    (0 : Int) ≤ 0 ∧
    NewScanner () () 0 =
      Except.ok
        ({ ctx := (), client := (), loggerOutput := [],
           workerPoolCap := 0, workerPoolTokens := 0 }, none) :=
  ⟨by decide, newScanner_never_fails () () 0 (by decide)⟩
